import Mathlib

set_option autoImplicit false

namespace TacticoAI

/-! Shallow embedding of the TacticoAI video-analysis core
(`src/backend/ml_analysis/...`, `src/backend/ml_analysis_processor.py`,
`src/backend/video_analysis/examples/soccer/comprehensive_analysis.py`).
Pixel and pitch coordinates are embedded as exact rationals; OpenCV calls
(optical flow, contour detection, video decoding) are external capabilities
and enter the model as explicit inputs describing their per-frame outcome. -/

/-! ## Camera movement estimator
(`camera_movement_estimator/camera_movement_estimator.py`) -/

/-- `self.minimum_distance = 5` from `CameraMovementEstimator.__init__`. -/
def minimum_distance : ℚ := 5

/-- Modelled from the spec: the `utils` helper `measure_distance` is missing from
`src/` (only `utils/video_utils.py` is present); per the spec it is the Euclidean
displacement magnitude of a feature pair.  All uses in the source compare
magnitudes, which for nonnegative reals is order-isomorphic to comparing their
squares, so the embedding carries squared magnitudes throughout. -/
def measure_distance_sq (p1 p2 : ℚ × ℚ) : ℚ :=
  (p1.1 - p2.1) ^ 2 + (p1.2 - p2.2) ^ 2

/-- Modelled from the spec: the `utils` helper `measure_xy_distance` is missing from
`src/`.  The spec states the camera-motion vector is the chosen feature pair's
displacement vector, and the call site is `measure_xy_distance(old, new)`;
faithfulness to the spec therefore fixes `measure_xy_distance p1 p2 = p2 - p1`
componentwise. -/
def measure_xy_distance (p1 p2 : ℚ × ℚ) : ℚ × ℚ :=
  (p2.1 - p1.1, p2.2 - p1.2)

/-- One iteration of the inner `for i, (new, old) in enumerate(zip(...))` loop of
`CameraMovementEstimator.get_camera_movement`: the state is
`(max_distance², (camera_movement_x, camera_movement_y))` and a pair is
`(new_features_point, old_features_point)`.  The source updates on
`distance > max_distance` (strict), embedded on squares. -/
def cameraFrameStep (st : ℚ × (ℚ × ℚ)) (pr : (ℚ × ℚ) × (ℚ × ℚ)) : ℚ × (ℚ × ℚ) :=
  let d := measure_distance_sq pr.1 pr.2
  if st.1 < d then (d, measure_xy_distance pr.2 pr.1) else st

/-- The per-frame body of `CameraMovementEstimator.get_camera_movement`
(lines 72-86): scan the optical-flow pairs `(new, old)` for the largest
displacement, then report that displacement and refresh the feature set only when
`max_distance > self.minimum_distance`; otherwise the frame keeps the
initialized `[0,0]` vector and the old feature set.  Returns
(camera-movement vector, whether `goodFeaturesToTrack` is re-run). -/
def frameCameraMovement (pairs : List ((ℚ × ℚ) × (ℚ × ℚ))) : (ℚ × ℚ) × Bool :=
  let st := pairs.foldl cameraFrameStep (0, (0, 0))
  if minimum_distance ^ 2 < st.1 then (st.2, true) else ((0, 0), false)

/-- The maximum squared displacement over a list of optical-flow pairs. -/
def maxSqDisplacement (pairs : List ((ℚ × ℚ) × (ℚ × ℚ))) : ℚ :=
  pairs.foldl (fun m pr => max m (measure_distance_sq pr.1 pr.2)) 0

/-- `CameraMovementEstimator.get_camera_movement` for `n` frames (both call sites
pass `read_from_stub=False`, so the pickle-stub branch is not modelled).  The
OpenCV optical flow is an external capability, abstracted as `flows i`: the
`zip(new_features, old_features)` pair list computed for frame `i ≥ 1`.  The
source initializes `camera_movement = [[0,0]]*len(frames)` and the loop runs
over `range(1, len(frames))`, so index 0 is never overwritten. -/
def get_camera_movement (n : ℕ) (flows : ℕ → List ((ℚ × ℚ) × (ℚ × ℚ))) :
    List (ℚ × ℚ) :=
  (List.range n).map (fun i => if i = 0 then (0, 0) else (frameCameraMovement (flows i)).1)

/-! ## Tracks data model
The nested per-class / per-frame / per-track-id dictionaries of the source,
with the frame-observation fields the verified claims touch. -/

/-- One frame observation of one track (`track_info` in the source). -/
structure TrackInfo where
  position : ℚ × ℚ
  position_adjusted : Option (ℚ × ℚ) := none
  /-- `none` = key absent; `some none` = key set to Python `None`. -/
  position_transformed : Option (Option (ℚ × ℚ)) := none
  team : Option ℕ := none
  has_ball : Bool := false
deriving Repr, DecidableEq

/-- Per-frame mapping `track_id → track_info`. -/
abbrev FrameTracks := List (ℕ × TrackInfo)

/-- `tracks`: object class → per-frame list of track dictionaries. -/
abbrev Tracks := List (String × List FrameTracks)

/-- Look up the observation of track `tid` of class `obj` at frame `f`. -/
def getInfo (tracks : Tracks) (obj : String) (f : ℕ) (tid : ℕ) : Option TrackInfo :=
  match tracks.lookup obj with
  | none => none
  | some frames =>
    match frames.get? f with
    | none => none
    | some ts => ts.lookup tid

/-- The body of `CameraMovementEstimator.add_adjust_positions_to_tracks`:
`position_adjusted = (position[0]-camera_movement[0], position[1]-camera_movement[1])`. -/
def adjustInfo (info : TrackInfo) (cm : ℚ × ℚ) : TrackInfo :=
  { info with position_adjusted := some (info.position.1 - cm.1, info.position.2 - cm.2) }

/-- The `for frame_num, track in enumerate(object_tracks)` loop, threading the
frame index.  The callers always pass one camera-movement entry per frame;
`List.getD` makes the Python indexing total, and the theorems assume
`f < cmList.length` as the call sites guarantee. -/
def adjustFrames (cmList : List (ℚ × ℚ)) : ℕ → List FrameTracks → List FrameTracks
  | _, [] => []
  | f, ts :: rest =>
      ts.map (fun ti => (ti.1, adjustInfo ti.2 (cmList.getD f (0, 0))))
        :: adjustFrames cmList (f + 1) rest

/-- `CameraMovementEstimator.add_adjust_positions_to_tracks`
(camera_movement_estimator.py lines 41-48). -/
def add_adjust_positions_to_tracks (tracks : Tracks) (cmList : List (ℚ × ℚ)) : Tracks :=
  tracks.map (fun ot => (ot.1, adjustFrames cmList 0 ot.2))

/-- The contrast reading named by claim C10: subtract the cumulative sum of the
camera-movement vectors over frames `0..f` instead of frame `f`'s own vector.
This definition follows the claim's words, for comparison with the source
embedding `add_adjust_positions_to_tracks`. -/
def cumulativeCameraMovement (cmList : List (ℚ × ℚ)) (f : ℕ) : ℚ × ℚ :=
  (((cmList.take (f + 1)).map Prod.fst).sum, ((cmList.take (f + 1)).map Prod.snd).sum)

/-- Claim C10's contrast variant of `add_adjust_positions_to_tracks` (subtracts the
running sum); declared only to be distinguished from the source behaviour. -/
def add_adjust_positions_to_tracks_cumulative (tracks : Tracks) (cmList : List (ℚ × ℚ)) :
    Tracks :=
  tracks.map (fun ot => (ot.1,
    (List.range ot.2.length).zip ot.2 |>.map (fun fts =>
      fts.2.map (fun ti => (ti.1, adjustInfo ti.2 (cumulativeCameraMovement cmList fts.1))))))

/-! ## View transformer (`view_transformer/view_transformer.py`) -/

/-- `court_width = 68` from `ViewTransformer.__init__`. -/
def court_width : ℚ := 68

/-- `court_length = 23.32` from `ViewTransformer.__init__`. -/
def court_length : ℚ := 583 / 25

/-- `self.target_vertices` from `ViewTransformer.__init__`:
`[[0, court_width], [0, 0], [court_length, 0], [court_length, court_width]]`. -/
def target_vertices : List (ℚ × ℚ) :=
  [(0, court_width), (0, 0), (court_length, 0), (court_length, court_width)]

/-- A 3×3 perspective transform, the output of `cv2.getPerspectiveTransform`.
The solver itself is an OpenCV capability; the claims depend only on how the
resulting matrix is applied, so the matrix entries are carried abstractly. -/
structure Homography where
  h00 : ℚ
  h01 : ℚ
  h02 : ℚ
  h10 : ℚ
  h11 : ℚ
  h12 : ℚ
  h20 : ℚ
  h21 : ℚ
  h22 : ℚ
deriving Repr, DecidableEq

/-- `cv2.perspectiveTransform` on a single point:
`(x', y') = ((h00 x + h01 y + h02)/w, (h10 x + h11 y + h12)/w)` with
`w = h20 x + h21 y + h22`. -/
def applyHomography (H : Homography) (p : ℚ × ℚ) : ℚ × ℚ :=
  let w := H.h20 * p.1 + H.h21 * p.2 + H.h22
  ((H.h00 * p.1 + H.h01 * p.2 + H.h02) / w, (H.h10 * p.1 + H.h11 * p.2 + H.h12) / w)

/-- The identity perspective transform, used to instantiate concrete examples
(the nullability of `transform_point` does not depend on the matrix). -/
def identityHomography : Homography := ⟨1, 0, 0, 0, 1, 0, 0, 0, 1⟩

/-- A four-vertex pixel quadrilateral in cyclic order, as stored in
`self.pixel_vertices` (a 4×2 array). -/
structure Quad where
  v0 : ℚ × ℚ
  v1 : ℚ × ℚ
  v2 : ℚ × ℚ
  v3 : ℚ × ℚ
deriving Repr, DecidableEq

/-- A `ViewTransformer` instance after `__init__`: the four source pitch corners
and the fitted perspective matrix.  Field names follow the source, including its
spelling of `persepctive_trasnformer`. -/
structure ViewTransformer where
  pixel_vertices : Quad
  persepctive_trasnformer : Homography

/-- Python `int(q)`: truncation toward zero. -/
def pyInt (q : ℚ) : ℤ := if 0 ≤ q then ⌊q⌋ else ⌈q⌉

/-- The integer point `p = (int(point[0]), int(point[1]))` built by
`ViewTransformer.transform_point`, re-embedded into ℚ. -/
def pyIntPoint (p : ℚ × ℚ) : ℚ × ℚ := ((pyInt p.1 : ℚ), (pyInt p.2 : ℚ))

/-- Cross product `(a - o) × (p - o)`. -/
def cross2 (o a p : ℚ × ℚ) : ℚ :=
  (a.1 - o.1) * (p.2 - o.2) - (a.2 - o.2) * (p.1 - o.1)

/-- `cv2.pointPolygonTest(vertices, p, False) >= 0` (inside or on the boundary)
for the convex quadrilaterals this class produces (a `cv2.minAreaRect` box, the
proportional trapezoid, or the hardcoded default): the point is inside or on a
convex polygon given in cyclic vertex order exactly when all edge cross products
share a sign. -/
def insideQuad (q : Quad) (p : ℚ × ℚ) : Bool :=
  let e0 := cross2 q.v0 q.v1 p
  let e1 := cross2 q.v1 q.v2 p
  let e2 := cross2 q.v2 q.v3 p
  let e3 := cross2 q.v3 q.v0 p
  (decide (0 ≤ e0) && decide (0 ≤ e1) && decide (0 ≤ e2) && decide (0 ≤ e3)) ||
  (decide (e0 ≤ 0) && decide (e1 ≤ 0) && decide (e2 ≤ 0) && decide (e3 ≤ 0))

/-- The hardcoded default `self.pixel_vertices` of `ViewTransformer.__init__`
(used when no frame is supplied):
`[[110, 1035], [265, 275], [910, 260], [1640, 915]]`. -/
def default_pixel_vertices : Quad :=
  ⟨(110, 1035), (265, 275), (910, 260), (1640, 915)⟩

/-- `ViewTransformer.transform_point` (view_transformer.py lines 135-143):
the containment gate runs on the *int-truncated* point `p`, while the
perspective transform is applied to the original `point`. -/
def transform_point (vt : ViewTransformer) (point : ℚ × ℚ) : Option (ℚ × ℚ) :=
  if insideQuad vt.pixel_vertices (pyIntPoint point) then
    some (applyHomography vt.persepctive_trasnformer point)
  else
    none

/-- The per-track body of `ViewTransformer.add_transformed_position_to_tracks`:
when `position_adjusted` is set, store `transform_point`'s result (possibly
Python `None`); otherwise store `None`. -/
def transformInfo (vt : ViewTransformer) (info : TrackInfo) : TrackInfo :=
  let pt : Option (ℚ × ℚ) :=
    match info.position_adjusted with
    | some p => transform_point vt p
    | none => none
  { info with position_transformed := some pt }

/-- `ViewTransformer.add_transformed_position_to_tracks`
(view_transformer.py lines 145-157). -/
def add_transformed_position_to_tracks (vt : ViewTransformer) (tracks : Tracks) : Tracks :=
  tracks.map (fun ot => (ot.1, ot.2.map (fun ts => ts.map (fun ti => (ti.1, transformInfo vt ti.2)))))

/-! ## Field-corner detection (`view_transformer.py` lines 31-133) -/

/-- `ViewTransformer._get_proportional_field_corners`: proportional margins
(`int(frame_width*0.1)`, `int(frame_height*0.15)`), top edge at 70% of the
bottom span, returned as [bottom-left, top-left, top-right, bottom-right].
Python float multiplications are embedded as exact rational arithmetic;
truncating a nonnegative exact ratio equals integer division, so
`int(w*0.1) = w / 10`, `int(h*0.15) = 15*h / 100`, `int(s*0.7) = 7*s / 10`,
and `// 2` is `/ 2` (all operands here nonnegative). -/
def _get_proportional_field_corners (frame_width frame_height : ℕ) : List (ℤ × ℤ) :=
  let margin_x : ℤ := (frame_width : ℤ) / 10
  let margin_y : ℤ := 15 * (frame_height : ℤ) / 100
  let left := margin_x
  let right := (frame_width : ℤ) - margin_x
  let top := margin_y
  let bottom := (frame_height : ℤ) - margin_y
  let top_width : ℤ := 7 * (right - left) / 10
  let top_left_x := left + (right - left - top_width) / 2
  let top_right_x := top_left_x + top_width
  [(top_left_x, bottom), (top_left_x, top), (top_right_x, top), (right, bottom)]

/-- `cv2.contourArea` on a 4-point contour: half the absolute shoelace sum. -/
def contourAreaQuad : List (ℤ × ℤ) → ℚ
  | [a, b, c, d] =>
      ((|(a.1 * b.2 - b.1 * a.2) + (b.1 * c.2 - c.1 * b.2) +
         (c.1 * d.2 - d.1 * c.2) + (d.1 * a.2 - a.1 * d.2)| : ℤ) : ℚ) / 2
  | _ => 0

/-- `ViewTransformer._validate_field_corners`: all corners within the frame and
the contour area between 20% and 80% of the frame area. -/
def _validate_field_corners (corners : List (ℤ × ℤ)) (frame_width frame_height : ℕ) : Bool :=
  corners.all (fun c =>
    decide (0 ≤ c.1) && decide (c.1 ≤ (frame_width : ℤ)) &&
    decide (0 ≤ c.2) && decide (c.2 ≤ (frame_height : ℤ))) &&
  (let ratio := contourAreaQuad corners / ((frame_width * frame_height : ℕ) : ℚ)
   decide ((2 / 10 : ℚ) ≤ ratio) && decide (ratio ≤ 8 / 10))

/-- The outcome of the OpenCV stages of `detect_field_corners` on one frame.
`cvtColorRaises`: the try block raises at `cv2.cvtColor`, i.e. before
`frame_height, frame_width = gray.shape` binds those locals;
`detectionRaisesLater`: the try block raises after that binding;
`detectedCorners`: the canonicalized `cv2.minAreaRect` box when a candidate
field contour was found, `none` when no contour qualified. -/
structure FrameModel where
  frame_width : ℕ
  frame_height : ℕ
  cvtColorRaises : Bool
  detectionRaisesLater : Bool
  detectedCorners : Option (List (ℤ × ℤ))
deriving Repr, DecidableEq

/-- `ViewTransformer.detect_field_corners` (view_transformer.py lines 31-93).
When the try block raises before `gray.shape` executes, the except handler
prints and control reaches the fallback line
`return self._get_proportional_field_corners(frame_width, frame_height)`,
which raises `UnboundLocalError` because neither local was ever bound —
embedded as `Except.error`.  Every other failure path returns the
proportional fallback. -/
def detect_field_corners (fr : FrameModel) : Except String (List (ℤ × ℤ)) :=
  if fr.cvtColorRaises then
    Except.error "UnboundLocalError: frame_width referenced before assignment"
  else if fr.detectionRaisesLater then
    Except.ok (_get_proportional_field_corners fr.frame_width fr.frame_height)
  else
    match fr.detectedCorners with
    | some corners =>
        if _validate_field_corners corners fr.frame_width fr.frame_height then
          Except.ok corners
        else
          Except.ok (_get_proportional_field_corners fr.frame_width fr.frame_height)
    | none => Except.ok (_get_proportional_field_corners fr.frame_width fr.frame_height)

/-! ## Frame source (`utils/video_utils.py`, `read_video`) -/

/-- One `cap.read()` outcome inside the `read_video` while loop:
`ok f` — a frame decoded successfully (frames carry an id);
`nullFrame` — `ret` true but the frame is `None`;
`exn` — `cap.read()` (or the frame handling) raised. -/
inductive ReadEvent where
  | ok (frame : ℕ)
  | nullFrame
  | exn
deriving Repr, DecidableEq

/-- `max_consecutive_errors = 10` from `read_video`. -/
def max_consecutive_errors : ℕ := 10

/-- The `error_count <= 100` bound from `read_video`. -/
def max_total_errors : ℕ := 100

/-- The `len(frames) < 100` acceptance bound from `read_video`. -/
def min_frames : ℕ := 100

/-- The while loop of `read_video` (video_utils.py lines 46-83) over the stream
of `cap.read()` outcomes; state is (accumulated frames reversed,
consecutive_errors, error_count); returns (frames, error_count).  A `nullFrame`
increments only `consecutive_errors`; an exception increments both counters;
a successful read appends and resets `consecutive_errors`. -/
def readLoop : List ReadEvent → List ℕ → ℕ → ℕ → List ℕ × ℕ
  | [], acc, _, ec => (acc.reverse, ec)
  | ReadEvent.ok f :: rest, acc, _, ec => readLoop rest (f :: acc) 0 ec
  | ReadEvent.nullFrame :: rest, acc, ce, ec =>
      if max_consecutive_errors ≤ ce + 1 then (acc.reverse, ec)
      else readLoop rest acc (ce + 1) ec
  | ReadEvent.exn :: rest, acc, ce, ec =>
      if max_consecutive_errors ≤ ce + 1 then (acc.reverse, ec + 1)
      else if ec + 1 ≤ max_total_errors then readLoop rest acc (ce + 1) (ec + 1)
      else (acc.reverse, ec + 1)

/-- `read_video` (video_utils.py lines 4-107) after a successfully opened
capture: run the read loop, then classify — raise when no frames survived and
errors occurred, return `[]` when no frames and no errors, raise when fewer
than 100 frames survived, otherwise return the surviving frames (even when
errors occurred). -/
def read_video (events : List ReadEvent) : Except String (List ℕ) :=
  let r := readLoop events [] 0 0
  if r.1.length = 0 then
    if 0 < r.2 then Except.error "Failed to read video: no valid frames"
    else Except.ok []
  else if r.1.length < min_frames then
    Except.error "Insufficient frames"
  else
    Except.ok r.1

/-! ## Ball-possession ledger
(`ml_analysis/main.py` lines 114-131 and `ml_analysis_processor.py` lines 162-176).
The per-frame outcome of `PlayerBallAssigner.assign_ball_to_player` plus the team
lookup is abstracted as `Option ℕ`: `some t` when `assigned_player != -1` and that
player's `team` is `t`; `none` when `assigned_player == -1`. -/

/-- One iteration of the Step-10 loop of `MLAnalysisProcessor.process_video`:
append the possessor's team, else
`team_ball_control[-1] if team_ball_control else 1`. -/
def tbcStep (acc : List ℕ) (a : Option ℕ) : List ℕ :=
  match a with
  | some t => acc ++ [t]
  | none => acc ++ [acc.getLastD 1]

/-- The `team_ball_control` list built by `MLAnalysisProcessor.process_video`. -/
def processorTeamBallControl (assigns : List (Option ℕ)) : List ℕ :=
  assigns.foldl tbcStep []

/-- One iteration of the Step-10 loop of `ml_analysis/main.py`: the no-possessor
branch is `team_ball_control.append(team_ball_control[-1])`, which raises
`IndexError` when the list is still empty. -/
def mainTbcStep (acc : Except String (List ℕ)) (a : Option ℕ) : Except String (List ℕ) :=
  match acc with
  | Except.error e => Except.error e
  | Except.ok l =>
    match a with
    | some t => Except.ok (l ++ [t])
    | none =>
      match l.getLast? with
      | some x => Except.ok (l ++ [x])
      | none => Except.error "IndexError: list index out of range"

/-- The `team_ball_control` list built by `ml_analysis/main.py` `main()`,
with the possible `IndexError` made explicit. -/
def mainTeamBallControl (assigns : List (Option ℕ)) : Except String (List ℕ) :=
  assigns.foldl mainTbcStep (Except.ok [])

/-- The possession-percentage computation of
`MLAnalysisProcessor._create_analysis_summary` (lines 308-313):
`count / total_frames * 100` when `total_frames > 0`, else `0`. -/
def team_percent (c total : ℕ) : ℚ :=
  if 0 < total then (c : ℚ) / (total : ℚ) * 100 else 0

/-- The pair `(team_1_percent, team_2_percent)` of
`MLAnalysisProcessor._create_analysis_summary`: frames with value 1 are credited
to team 1 and frames with value 2 to team 2. -/
def possession_summary (tbc : List ℕ) : ℚ × ℚ :=
  (team_percent (tbc.count 1) tbc.length, team_percent (tbc.count 2) tbc.length)

/-! ## Goalkeeper team resolution
(`video_analysis/examples/soccer/comprehensive_analysis.py` lines 93-104).
Inputs are the bottom-center anchors (already extracted by
`get_anchors_coordinates(sv.Position.BOTTOM_CENTER)`) and the outfield players'
fitted team ids. -/

/-- `players_xy[players_team_id == t]`: the anchors of the players whose fitted
team id is `t` (positional zip, as numpy boolean indexing does). -/
def teamPoints (players_xy : List (ℚ × ℚ)) (players_team_id : List ℕ) (t : ℕ) :
    List (ℚ × ℚ) :=
  ((players_xy.zip players_team_id).filter (fun p => p.2 == t)).map Prod.fst

/-- `.mean(axis=0)` of a list of 2-D points. -/
def centroid (pts : List (ℚ × ℚ)) : ℚ × ℚ :=
  ((pts.map Prod.fst).sum / (pts.length : ℚ), (pts.map Prod.snd).sum / (pts.length : ℚ))

/-- `resolve_goalkeepers_team_id` (comprehensive_analysis.py lines 93-104):
each goalkeeper gets label `0 if dist_0 < dist_1 else 1`, where `dist_t` is the
Euclidean distance to team `t`'s outfield centroid — embedded as the
order-equivalent comparison of squared distances. -/
def resolve_goalkeepers_team_id (players_xy : List (ℚ × ℚ)) (players_team_id : List ℕ)
    (goalkeepers_xy : List (ℚ × ℚ)) : List ℕ :=
  let team_0_centroid := centroid (teamPoints players_xy players_team_id 0)
  let team_1_centroid := centroid (teamPoints players_xy players_team_id 1)
  goalkeepers_xy.map (fun g =>
    if measure_distance_sq g team_0_centroid < measure_distance_sq g team_1_centroid
    then 0 else 1)

/-! ## Auxiliary notions used by the theorems -/

/-- Modelled from the spec: "regulation pitch dimensions (length × width in
meters)".  IFAB Law 1 bounds: the touch line (length) measures 90–120 m. -/
def regulation_length (l : ℚ) : Prop := 90 ≤ l ∧ l ≤ 120

/-- Modelled from the spec: IFAB Law 1 bounds for the goal line (width), 45–90 m. -/
def regulation_width (w : ℚ) : Prop := 45 ≤ w ∧ w ≤ 90

/-- Modelled from the spec: a regulation length × width pair (IFAB Law 1 also
requires the touch line to exceed the goal line). -/
def regulation_pitch_dimensions (l w : ℚ) : Prop :=
  regulation_length l ∧ regulation_width w ∧ w < l

/-- Minimum of a list of rationals (0 for the empty list; only applied to
explicit nonempty vertex lists). -/
def listMin : List ℚ → ℚ
  | [] => 0
  | x :: xs => xs.foldl min x

/-- Maximum of a list of rationals (0 for the empty list). -/
def listMax : List ℚ → ℚ
  | [] => 0
  | x :: xs => xs.foldl max x

/-- The x- and y-extents spanned by a vertex list. -/
def quad_extents (vs : List (ℚ × ℚ)) : ℚ × ℚ :=
  (listMax (vs.map Prod.fst) - listMin (vs.map Prod.fst),
   listMax (vs.map Prod.snd) - listMin (vs.map Prod.snd))

/-- A vertex list that is an axis-aligned rectangle listed in the source's
order: left-top, left-bottom, right-bottom, right-top in pitch coordinates. -/
def isAxisRect (vs : List (ℚ × ℚ)) : Prop :=
  ∃ x0 x1 y0 y1 : ℚ, x0 < x1 ∧ y0 < y1 ∧ vs = [(x0, y1), (x0, y0), (x1, y0), (x1, y1)]

/-! ## Claim C3 -/

/-- Claim C3 counterexample: the homography's target rectangle has side lengths
`court_length = 23.32` and `court_width = 68` meters, and `23.32` is not a
regulation pitch length, so the target vertices do not match regulation pitch
dimensions (length × width) as the claim states. -/
theorem claim_C3_counterexample :
    quad_extents target_vertices = (court_length, court_width) ∧
    court_length = 583 / 25 ∧
    ¬ regulation_pitch_dimensions court_length court_width := by
  refine ⟨?_, rfl, ?_⟩
  · norm_num [quad_extents, listMax, listMin, target_vertices, court_length, court_width,
      max_def, min_def]
  · intro h
    simp only [regulation_pitch_dimensions, regulation_length] at h
    have h90 := h.1.1
    norm_num [court_length] at h90

/-- Claim C3, amended: the target vertices form a fixed axis-aligned rectangle
of `court_length = 23.32` m by `court_width = 68` m; the 68 m width is a
regulation pitch width, but 23.32 m is not a regulation pitch length — the
rectangle covers only a strip of the pitch, not a full regulation field. -/
theorem claim_C3_target_rectangle :
    isAxisRect target_vertices ∧
    quad_extents target_vertices = (court_length, court_width) ∧
    regulation_width court_width ∧
    ¬ regulation_length court_length := by
  refine ⟨⟨0, court_length, 0, court_width, by norm_num [court_length],
      by norm_num [court_width], rfl⟩,
    by norm_num [quad_extents, listMax, listMin, target_vertices, court_length, court_width,
      max_def, min_def], ?_, ?_⟩
  · constructor <;> norm_num [court_width, regulation_width]
  · intro h
    have h90 := h.1
    norm_num [court_length, regulation_length] at h90

/-! ## Claim C5 -/

/-- Claim C5: for every non-empty input frame sequence, the per-frame
camera-movement list returned by `get_camera_movement` has one entry per frame
and the vector at index 0 is exactly `(0,0)`. -/
theorem claim_C5_first_frame_zero (n : ℕ) (flows : ℕ → List ((ℚ × ℚ) × (ℚ × ℚ)))
    (h : 0 < n) :
    (get_camera_movement n flows).head? = some (0, 0) ∧
    (get_camera_movement n flows).length = n := by
  constructor
  · cases n with
    | zero => exact absurd h (by norm_num)
    | succ m =>
        unfold get_camera_movement
        rw [List.range_succ_eq_map]
        simp
  · simp [get_camera_movement]

/-- Claim C5 witness: the theorem applied to a concrete 3-frame run. -/
theorem claim_C5_witness :
    (0 : ℕ) < 3 ∧
    ((get_camera_movement 3 (fun _ => [])).head? = some (0, 0) ∧
     (get_camera_movement 3 (fun _ => [])).length = 3) :=
  ⟨by norm_num, claim_C5_first_frame_zero 3 (fun _ => []) (by norm_num)⟩

/-! ## Claim C2 -/

/-- Folding the main-script step from an error state stays in the error state. -/
theorem mainTbc_error_absorbs (l : List (Option ℕ)) (e : String) :
    l.foldl mainTbcStep (Except.error e) = Except.error e := by
  induction l with
  | nil => rfl
  | cons a rest ih => exact ih

/-- Every processor step appends one entry, so a non-empty accumulator keeps its
first element. -/
theorem tbc_head_stable (l : List (Option ℕ)) :
    ∀ acc : List ℕ, acc ≠ [] → (l.foldl tbcStep acc).head? = acc.head? := by
  induction l with
  | nil => intro acc _; rfl
  | cons a rest ih =>
      intro acc hacc
      have hne : tbcStep acc a ≠ [] := by
        cases a <;> simp [tbcStep]
      have hhead : (tbcStep acc a).head? = acc.head? := by
        cases a <;> simp [tbcStep, List.head?_append, Option.or_of_isSome,
          Option.isSome_iff_exists, List.head?_eq_head, hacc]
      rw [List.foldl_cons, ih _ hne, hhead]

/-- Claim C2 counterexample: in `ml_analysis/main.py` (one of the claim's cited
sources) a first frame with no qualifying possessor executes
`team_ball_control.append(team_ball_control[-1])` on an empty list, raising
`IndexError` — the assignment is not "defined ... rather than throwing". -/
theorem claim_C2_counterexample :
    mainTeamBallControl [none] = Except.error "IndexError: list index out of range" := rfl

/-- Claim C2, amended: in `MLAnalysisProcessor.process_video` a first frame with
no qualifying possessor is explicitly defaulted to team 1
(`team_ball_control[-1] if team_ball_control else 1`) instead of throwing;
but the standalone `ml_analysis/main.py` pipeline raises `IndexError` in the
same condition. -/
theorem claim_C2_first_frame_default :
    (∀ rest : List (Option ℕ), mainTeamBallControl (none :: rest) =
        Except.error "IndexError: list index out of range") ∧
    (∀ assigns : List (Option ℕ), assigns.head? = some none →
        (processorTeamBallControl assigns).head? = some 1) := by
  constructor
  · intro rest
    show (none :: rest).foldl mainTbcStep (Except.ok []) = _
    rw [List.foldl_cons]
    exact mainTbc_error_absorbs rest _
  · intro assigns hhead
    cases assigns with
    | nil => simp at hhead
    | cons a rest =>
        have ha : a = none := by simpa using hhead
        subst ha
        show ((none :: rest).foldl tbcStep []).head? = some 1
        rw [List.foldl_cons]
        exact tbc_head_stable rest [1] (by simp)

/-- Claim C2 witness: the amended theorem applied to the concrete assignment
stream `[none, some 2]`. -/
theorem claim_C2_witness :
    ([none, some 2] : List (Option ℕ)).head? = some none ∧
    (processorTeamBallControl [none, some 2]).head? = some 1 :=
  ⟨rfl, claim_C2_first_frame_default.2 [none, some 2] rfl⟩

/-! ## Claim C6 -/

/-- A frame on which `cv2.cvtColor` raises (e.g. an already-grayscale 2-D
array), so the try block of `detect_field_corners` fails before
`frame_height, frame_width = gray.shape` binds those locals. -/
def badFrame : FrameModel := ⟨1920, 1080, true, false, none⟩

/-- A 1920×1080 frame on which detection raises only after the shape was read. -/
def laterFailFrame : FrameModel := ⟨1920, 1080, false, true, none⟩

/-- Claim C6: evaluation at the failing input.  When the exception fires before
`gray.shape` executes, the fallback line itself raises `UnboundLocalError`
instead of returning the proportional corners, contradicting the function's own
docstring ("Falls back to proportional positioning if detection fails").  For a
failure after the shape is read, the documented fallback is returned and it is
the 10%/15%-margin trapezoid with a strictly narrower top edge. -/
theorem claim_C6_unbound_local :
    detect_field_corners badFrame =
      Except.error "UnboundLocalError: frame_width referenced before assignment" ∧
    detect_field_corners laterFailFrame =
      Except.ok (_get_proportional_field_corners 1920 1080) ∧
    _get_proportional_field_corners 1920 1080 =
      [(422, 918), (422, 162), (1497, 162), (1728, 918)] ∧
    (1497 - 422 : ℤ) < 1728 - 422 := by
  refine ⟨rfl, rfl, by decide, by decide⟩

/-! ## Claim C4 -/

/-- The running maximum of squared displacements is bounded by any bound on the
seed and the elements. -/
theorem foldlMax_le (l : List ((ℚ × ℚ) × (ℚ × ℚ))) :
    ∀ m₀ c : ℚ, m₀ ≤ c → (∀ pr ∈ l, measure_distance_sq pr.1 pr.2 ≤ c) →
      l.foldl (fun m pr => max m (measure_distance_sq pr.1 pr.2)) m₀ ≤ c := by
  induction l with
  | nil => intro m₀ c h₀ _; simpa using h₀
  | cons pr rest ih =>
      intro m₀ c h₀ h
      rw [List.foldl_cons]
      exact ih _ c (max_le h₀ (h pr (by simp))) (fun q hq => h q (by simp [hq]))

/-- The seed is below the running maximum. -/
theorem le_foldlMax_init (l : List ((ℚ × ℚ) × (ℚ × ℚ))) :
    ∀ m₀ : ℚ, m₀ ≤ l.foldl (fun m pr => max m (measure_distance_sq pr.1 pr.2)) m₀ := by
  induction l with
  | nil => intro m₀; simp
  | cons pr rest ih =>
      intro m₀
      rw [List.foldl_cons]
      exact le_trans (le_max_left _ _) (ih _)

/-- Every element's squared displacement is below the running maximum. -/
theorem le_foldlMax_mem (l : List ((ℚ × ℚ) × (ℚ × ℚ))) :
    ∀ m₀ : ℚ, ∀ pr ∈ l,
      measure_distance_sq pr.1 pr.2 ≤
        l.foldl (fun m pr => max m (measure_distance_sq pr.1 pr.2)) m₀ := by
  induction l with
  | nil => intro m₀ pr h; simp at h
  | cons hd rest ih =>
      intro m₀ pr h
      rw [List.foldl_cons]
      rcases List.mem_cons.mp h with h | h
      · subst h
        exact le_trans (le_max_right _ _) (le_foldlMax_init rest _)
      · exact ih _ pr h

/-- Characterization of the `get_camera_movement` inner scan: either no pair
beats the seed and the state is unchanged, or the state holds the squared
displacement and displacement vector of a maximal pair that beats the seed. -/
theorem cameraFold_cases (l : List ((ℚ × ℚ) × (ℚ × ℚ))) :
    ∀ (m₀ : ℚ) (v₀ : ℚ × ℚ),
      (l.foldl cameraFrameStep (m₀, v₀) = (m₀, v₀) ∧
        ∀ pr ∈ l, measure_distance_sq pr.1 pr.2 ≤ m₀) ∨
      (∃ pr ∈ l,
        (l.foldl cameraFrameStep (m₀, v₀)).1 = measure_distance_sq pr.1 pr.2 ∧
        (l.foldl cameraFrameStep (m₀, v₀)).2 = measure_xy_distance pr.2 pr.1 ∧
        m₀ < (l.foldl cameraFrameStep (m₀, v₀)).1 ∧
        ∀ q ∈ l, measure_distance_sq q.1 q.2 ≤ (l.foldl cameraFrameStep (m₀, v₀)).1) := by
  induction l with
  | nil => intro m₀ v₀; left; exact ⟨rfl, by simp⟩
  | cons pr rest ih =>
      intro m₀ v₀
      rw [List.foldl_cons]
      by_cases hlt : m₀ < measure_distance_sq pr.1 pr.2
      · have hstep : cameraFrameStep (m₀, v₀) pr =
            (measure_distance_sq pr.1 pr.2, measure_xy_distance pr.2 pr.1) := by
          simp [cameraFrameStep, hlt]
        rw [hstep]
        rcases ih (measure_distance_sq pr.1 pr.2) (measure_xy_distance pr.2 pr.1) with
          ⟨heq, hle⟩ | ⟨q, hq, h1, h2, hpos, hub⟩
        · right
          refine ⟨pr, by simp, ?_, ?_, ?_, ?_⟩
          · rw [heq]
          · rw [heq]
          · rw [heq]; exact hlt
          · intro q hq
            rcases List.mem_cons.mp hq with h | h
            · subst h; rw [heq]
            · rw [heq]; exact hle q h
        · right
          refine ⟨q, by simp [hq], h1, h2, lt_trans hlt hpos, ?_⟩
          intro r hr
          rcases List.mem_cons.mp hr with h | h
          · subst h; exact le_of_lt hpos
          · exact hub r h
      · have hstep : cameraFrameStep (m₀, v₀) pr = (m₀, v₀) := by
          simp [cameraFrameStep, hlt]
        rw [hstep]
        rcases ih m₀ v₀ with ⟨heq, hle⟩ | ⟨q, hq, h1, h2, hpos, hub⟩
        · left
          refine ⟨heq, ?_⟩
          intro q hq
          rcases List.mem_cons.mp hq with h | h
          · subst h; exact le_of_not_lt hlt
          · exact hle q h
        · right
          refine ⟨q, by simp [hq], h1, h2, hpos, ?_⟩
          intro r hr
          rcases List.mem_cons.mp hr with h | h
          · subst h; exact le_trans (le_of_not_lt hlt) (le_of_lt hpos)
          · exact hub r h

/-- The camera-scan state's first component is exactly `maxSqDisplacement`. -/
theorem cameraFold_fst_eq_maxSq (l : List ((ℚ × ℚ) × (ℚ × ℚ))) :
    (l.foldl cameraFrameStep (0, (0, 0))).1 = maxSqDisplacement l := by
  rcases cameraFold_cases l 0 (0, 0) with ⟨heq, hle⟩ | ⟨pr, hmem, h1, _, hpos, hub⟩
  · rw [heq]
    have h1 : maxSqDisplacement l ≤ 0 := foldlMax_le l 0 0 le_rfl hle
    have h2 : (0 : ℚ) ≤ maxSqDisplacement l := le_foldlMax_init l 0
    simpa using (le_antisymm h1 h2).symm
  · have hub' : maxSqDisplacement l ≤ (l.foldl cameraFrameStep (0, (0, 0))).1 :=
      foldlMax_le l 0 _ (le_of_lt hpos) hub
    have hlb : (l.foldl cameraFrameStep (0, (0, 0))).1 ≤ maxSqDisplacement l := by
      rw [h1]; exact le_foldlMax_mem l 0 pr hmem
    exact le_antisymm hlb hub'

/-- Unfolding lemma for `frameCameraMovement` with the `let` inlined. -/
theorem frameCameraMovement_eq (pairs : List ((ℚ × ℚ) × (ℚ × ℚ))) :
    frameCameraMovement pairs =
      if minimum_distance ^ 2 < (pairs.foldl cameraFrameStep (0, (0, 0))).1
      then ((pairs.foldl cameraFrameStep (0, (0, 0))).2, true)
      else ((0, 0), false) := rfl

/-- Claim C4, amended: for every frame at index ≥ 1 the reported
camera-movement vector is the displacement of a feature pair attaining the
largest displacement magnitude — a max-displacement heuristic, not an average —
but the threshold comparison is strict: when the maximum displacement is at
most the minimum-motion threshold (5 px, compared via squares) the reported
vector is `(0,0)` and the feature set is kept, and the feature set is
re-detected only when the maximum displacement strictly exceeds the
threshold (the claim said re-detection happens whenever it is not below). -/
theorem claim_C4_max_displacement (pairs : List ((ℚ × ℚ) × (ℚ × ℚ))) :
    (maxSqDisplacement pairs ≤ minimum_distance ^ 2 →
        frameCameraMovement pairs = ((0, 0), false)) ∧
    (minimum_distance ^ 2 < maxSqDisplacement pairs →
        (frameCameraMovement pairs).2 = true ∧
        ∃ pr ∈ pairs,
          measure_distance_sq pr.1 pr.2 = maxSqDisplacement pairs ∧
          (frameCameraMovement pairs).1 = measure_xy_distance pr.2 pr.1) := by
  constructor
  · intro hle
    rw [frameCameraMovement_eq, cameraFold_fst_eq_maxSq, if_neg (not_lt.mpr hle)]
  · intro hgt
    have hcond : minimum_distance ^ 2 < (pairs.foldl cameraFrameStep (0, (0, 0))).1 := by
      rw [cameraFold_fst_eq_maxSq]; exact hgt
    rcases cameraFold_cases pairs 0 (0, 0) with ⟨heq, _⟩ | ⟨pr, hmem, h1, h2, _, _⟩
    · exfalso
      rw [heq] at hcond
      have hp : (0 : ℚ) < minimum_distance ^ 2 := by norm_num [minimum_distance]
      exact absurd (lt_trans hp hcond) (by norm_num)
    · constructor
      · rw [frameCameraMovement_eq, if_pos hcond]
      · refine ⟨pr, hmem, ?_, ?_⟩
        · rw [← h1, cameraFold_fst_eq_maxSq]
        · rw [frameCameraMovement_eq, if_pos hcond]
          exact h2

/-- One feature pair with displacement `(0,1)` and one with displacement
`(3,4)`: the maximum displacement magnitude is exactly 5 px, the threshold. -/
def boundaryPairs : List ((ℚ × ℚ) × (ℚ × ℚ)) := [((0, 1), (0, 0)), ((3, 4), (0, 0))]

/-- Claim C4 counterexample: with a maximum displacement of exactly 5 px — not
below the 5 px threshold — the source still reports `(0,0)` and keeps the
feature set (the `Bool` is `false`), because its test `max_distance > 5` is
strict; the claim's "otherwise the feature point set is re-detected" fails
here. -/
theorem claim_C4_counterexample :
    maxSqDisplacement boundaryPairs = minimum_distance ^ 2 ∧
    ¬ (maxSqDisplacement boundaryPairs < minimum_distance ^ 2) ∧
    frameCameraMovement boundaryPairs = ((0, 0), false) := by
  refine ⟨?_, ?_, ?_⟩ <;>
    norm_num [maxSqDisplacement, boundaryPairs, measure_distance_sq, minimum_distance,
      frameCameraMovement, cameraFrameStep, measure_xy_distance, max_def]

/-- Two feature pairs, with displacements `(0,4)` and `(6,8)` (magnitudes 4 and
10): the maximum strictly exceeds the 5 px threshold. -/
def bigPairs : List ((ℚ × ℚ) × (ℚ × ℚ)) := [((0, 4), (0, 0)), ((6, 8), (0, 0))]

/-- Claim C4 witness: the amended theorem applied to `bigPairs`. -/
theorem claim_C4_witness :
    minimum_distance ^ 2 < maxSqDisplacement bigPairs ∧
    ((frameCameraMovement bigPairs).2 = true ∧
      ∃ pr ∈ bigPairs,
        measure_distance_sq pr.1 pr.2 = maxSqDisplacement bigPairs ∧
        (frameCameraMovement bigPairs).1 = measure_xy_distance pr.2 pr.1) :=
  ⟨by norm_num [maxSqDisplacement, bigPairs, measure_distance_sq, minimum_distance, max_def],
   (claim_C4_max_displacement bigPairs).2
     (by norm_num [maxSqDisplacement, bigPairs, measure_distance_sq, minimum_distance, max_def])⟩

/-! ## Claims C10 and C1: lookups through the track-updating maps -/

/-- Association lookup commutes with a map that rewrites values only. -/
theorem lookup_map_snd {α β γ : Type} [BEq α] (l : List (α × β)) (F : β → γ) (k : α) :
    (l.map (fun kv => (kv.1, F kv.2))).lookup k = (l.lookup k).map F := by
  induction l with
  | nil => rfl
  | cons hd tl ih =>
      cases h : k == hd.1 <;> simp [List.lookup, h, ih]

/-- `adjustFrames` rewrites the frame at relative index `f` with the
camera-movement entry at absolute index `k + f`. -/
theorem adjustFrames_get? (cmList : List (ℚ × ℚ)) :
    ∀ (frames : List FrameTracks) (k f : ℕ),
      (adjustFrames cmList k frames).get? f =
        (frames.get? f).map (fun ts =>
          ts.map (fun ti => (ti.1, adjustInfo ti.2 (cmList.getD (k + f) (0, 0))))) := by
  intro frames
  induction frames with
  | nil => intro k f; simp [adjustFrames]
  | cons ts rest ih =>
      intro k f
      cases f with
      | zero => simp [adjustFrames]
      | succ f' =>
          rw [adjustFrames]
          simp only [List.get?]
          rw [ih (k + 1) f']
          have harith : k + 1 + f' = k + (f' + 1) := by omega
          rw [harith]

/-- Looking a track up after `add_adjust_positions_to_tracks` yields the
original observation adjusted by that frame's camera-movement entry. -/
theorem getInfo_add_adjust (tracks : Tracks) (cmList : List (ℚ × ℚ)) (obj : String)
    (f tid : ℕ) :
    getInfo (add_adjust_positions_to_tracks tracks cmList) obj f tid =
      (getInfo tracks obj f tid).map (fun info => adjustInfo info (cmList.getD f (0, 0))) := by
  unfold getInfo add_adjust_positions_to_tracks
  rw [lookup_map_snd]
  cases tracks.lookup obj with
  | none => rfl
  | some frames =>
      simp only [Option.map_some']
      rw [adjustFrames_get?]
      cases frames.get? f with
      | none => rfl
      | some ts =>
          simp only [Option.map_some', Nat.zero_add]
          exact lookup_map_snd ts (fun info => adjustInfo info (cmList.getD f (0, 0))) tid

/-- Claim C10: `add_adjust_positions_to_tracks` sets `position_adjusted` to the
raw position minus the camera-movement vector of the track's own frame (the
per-frame delta) and leaves every other field of the observation unchanged
(the conclusion is a full record equality); and this differs from subtracting
the cumulative sum of camera-movement vectors over frames `0..f` — there is a
concrete run on which the two disagree. -/
theorem claim_C10_per_frame_delta :
    (∀ (tracks : Tracks) (cmList : List (ℚ × ℚ)) (obj : String) (f tid : ℕ)
        (info : TrackInfo),
        getInfo tracks obj f tid = some info →
        getInfo (add_adjust_positions_to_tracks tracks cmList) obj f tid =
          some { info with position_adjusted := some (info.position.1 - (cmList.getD f (0, 0)).1, info.position.2 - (cmList.getD f (0, 0)).2) }) ∧
    (∃ (tracks : Tracks) (cmList : List (ℚ × ℚ)) (obj : String) (f tid : ℕ),
        getInfo (add_adjust_positions_to_tracks tracks cmList) obj f tid ≠
          getInfo (add_adjust_positions_to_tracks_cumulative tracks cmList) obj f tid) := by
  constructor
  · intro tracks cmList obj f tid info hinfo
    rw [getInfo_add_adjust, hinfo]
    rfl
  · refine ⟨[("players", [[(1, { position := (10, 10) })], [(1, { position := (10, 10) })]])],
      [(1, 1), (2, 2)], "players", 1, 1, ?_⟩
    have hL : getInfo (add_adjust_positions_to_tracks
          [("players", [[(1, { position := (10, 10) })], [(1, { position := (10, 10) })]])]
          [(1, 1), (2, 2)]) "players" 1 1 =
        some (adjustInfo { position := (10, 10) } (2, 2)) := rfl
    have hR : getInfo (add_adjust_positions_to_tracks_cumulative
          [("players", [[(1, { position := (10, 10) })], [(1, { position := (10, 10) })]])]
          [(1, 1), (2, 2)]) "players" 1 1 =
        some (adjustInfo { position := (10, 10) }
          (cumulativeCameraMovement [(1, 1), (2, 2)] 1)) := rfl
    rw [hL, hR]
    intro hcontra
    rw [Option.some.injEq] at hcontra
    have hfield := congrArg TrackInfo.position_adjusted hcontra
    simp only [adjustInfo] at hfield
    rw [Option.some.injEq, Prod.ext_iff] at hfield
    have hx := hfield.1
    norm_num [cumulativeCameraMovement] at hx

/-- Concrete observation for the C10 witness: a player at pixel `(10, 10)`. -/
def demoInfo : TrackInfo := { position := (10, 10) }

/-- Two frames of that player track. -/
def demoTracks : Tracks := [("players", [[(1, demoInfo)], [(1, demoInfo)]])]

/-- A two-frame camera-movement list. -/
def demoCm : List (ℚ × ℚ) := [(1, 1), (2, 2)]

/-- Claim C10 witness: the theorem applied at frame 1 of the concrete track. -/
theorem claim_C10_witness :
    getInfo (add_adjust_positions_to_tracks demoTracks demoCm) "players" 1 1 =
      some { demoInfo with position_adjusted := some (demoInfo.position.1 - (demoCm.getD 1 (0, 0)).1, demoInfo.position.2 - (demoCm.getD 1 (0, 0)).2) } :=
  claim_C10_per_frame_delta.1 demoTracks demoCm "players" 1 1 demoInfo (by
    simp [getInfo, demoTracks, demoInfo, List.lookup])

/-- Looking a track up after `add_transformed_position_to_tracks` yields the
original observation with its `position_transformed` field filled in. -/
theorem getInfo_add_transformed (vt : ViewTransformer) (tracks : Tracks) (obj : String)
    (f tid : ℕ) :
    getInfo (add_transformed_position_to_tracks vt tracks) obj f tid =
      (getInfo tracks obj f tid).map (transformInfo vt) := by
  unfold getInfo add_transformed_position_to_tracks
  rw [lookup_map_snd]
  cases tracks.lookup obj with
  | none => rfl
  | some frames =>
      simp only [Option.map_some', List.get?_map]
      cases frames.get? f with
      | none => rfl
      | some ts =>
          simp only [Option.map_some']
          exact lookup_map_snd ts (transformInfo vt) tid

/-- Claim C1, amended: for every frame and track whose motion-adjusted position
is defined, the stored pitch-transformed position is exactly `transform_point`'s
result, and that result is null if and only if the *int-truncated* (toward zero)
motion-adjusted anchor point fails the point-in-polygon test — the test is the
sole gate and nothing is fabricated for a rejected point, and a point whose
truncation passes the test gets the homography applied to the original
(untruncated) point.  The claim as frozen quantified the gate over the anchor
point itself; the truncation is the correction (see the counterexample). -/
theorem claim_C1_nullability (vt : ViewTransformer) (tracks : Tracks) (obj : String)
    (f tid : ℕ) (info : TrackInfo) (p : ℚ × ℚ)
    (hinfo : getInfo tracks obj f tid = some info)
    (hadj : info.position_adjusted = some p) :
    ∃ info2 : TrackInfo,
      getInfo (add_transformed_position_to_tracks vt tracks) obj f tid = some info2 ∧
      info2.position_transformed = some (transform_point vt p) ∧
      (transform_point vt p = none ↔ insideQuad vt.pixel_vertices (pyIntPoint p) = false) ∧
      (insideQuad vt.pixel_vertices (pyIntPoint p) = true →
        transform_point vt p = some (applyHomography vt.persepctive_trasnformer p)) := by
  refine ⟨transformInfo vt info, ?_, ?_, ?_, ?_⟩
  · rw [getInfo_add_transformed, hinfo]; rfl
  · simp [transformInfo, hadj]
  · by_cases h : insideQuad vt.pixel_vertices (pyIntPoint p) <;>
      simp [transform_point, h]
  · intro h
    simp [transform_point, h]

/-- The `ViewTransformer` built from the hardcoded default corners (the
homography matrix does not affect nullability; the identity stands in). -/
def vt_default : ViewTransformer := ⟨default_pixel_vertices, identityHomography⟩

/-- Claim C1 counterexample: the anchor point `(110.5, 1035.5)` lies strictly
outside the default source quadrilateral (its own containment test is false),
yet `transform_point` does not return null for it: the gate tests the
int-truncated point `(110, 1035)`, which is the quadrilateral's bottom-left
vertex and passes.  So "null iff the motion-adjusted anchor point lies outside
the source quadrilateral" fails as stated. -/
theorem claim_C1_counterexample :
    insideQuad vt_default.pixel_vertices (221 / 2, 2071 / 2) = false ∧
    pyIntPoint (221 / 2, 2071 / 2) = (110, 1035) ∧
    insideQuad vt_default.pixel_vertices (110, 1035) = true ∧
    transform_point vt_default (221 / 2, 2071 / 2) ≠ none := by
  have htrunc : pyIntPoint (221 / 2, 2071 / 2) = (110, 1035) := by
    norm_num [pyIntPoint, pyInt]
  have hin : insideQuad vt_default.pixel_vertices ((110 : ℚ), (1035 : ℚ)) = true := by
    norm_num [insideQuad, cross2, vt_default, default_pixel_vertices]
  refine ⟨?_, htrunc, hin, ?_⟩
  · norm_num [insideQuad, cross2, vt_default, default_pixel_vertices]
  · rw [transform_point, htrunc]
    simp [hin]

/-- Concrete observation for the C1 witness: adjusted anchor `(500, 600)`,
well inside the default quadrilateral. -/
def demoAdjInfo : TrackInfo := { position := (500, 600), position_adjusted := some (500, 600) }

/-- A one-frame track list holding that observation. -/
def demoTracksAdj : Tracks := [("players", [[(7, demoAdjInfo)]])]

/-- Claim C1 witness: the amended theorem applied to the concrete track. -/
theorem claim_C1_witness :
    ∃ info2 : TrackInfo,
      getInfo (add_transformed_position_to_tracks vt_default demoTracksAdj) "players" 0 7 =
        some info2 ∧
      info2.position_transformed = some (transform_point vt_default (500, 600)) ∧
      (transform_point vt_default (500, 600) = none ↔
        insideQuad vt_default.pixel_vertices (pyIntPoint (500, 600)) = false) ∧
      (insideQuad vt_default.pixel_vertices (pyIntPoint (500, 600)) = true →
        transform_point vt_default (500, 600) =
          some (applyHomography vt_default.persepctive_trasnformer (500, 600))) :=
  claim_C1_nullability vt_default demoTracksAdj "players" 0 7 demoAdjInfo (500, 600) rfl rfl

/-! ## Claim C7 -/

/-- Reading a run of good frames appends them all and leaves the error count. -/
theorem readLoop_ok_all (a : List ℕ) :
    ∀ (acc : List ℕ) (ce ec : ℕ),
      readLoop (a.map ReadEvent.ok) acc ce ec = (acc.reverse ++ a, ec) := by
  induction a with
  | nil => intro acc ce ec; simp [readLoop]
  | cons f rest ih =>
      intro acc ce ec
      rw [List.map_cons]
      rw [readLoop]
      rw [ih (f :: acc) 0 ec]
      simp

/-- A single failure event between two runs of good frames is skipped: all good
frames before and after it are read, and only the error count reflects it. -/
theorem readLoop_skips_isolated (e : ReadEvent)
    (he : e = ReadEvent.nullFrame ∨ e = ReadEvent.exn) (a : List ℕ) :
    ∀ (b : List ℕ) (acc : List ℕ) (ce ec : ℕ),
      ce + 1 < max_consecutive_errors → ec + 1 ≤ max_total_errors →
      readLoop (a.map ReadEvent.ok ++ e :: b.map ReadEvent.ok) acc ce ec =
        (acc.reverse ++ (a ++ b), ec + if e = ReadEvent.exn then 1 else 0) := by
  induction a with
  | nil =>
      intro b acc ce ec hce hec
      rcases he with he | he <;> subst he
      · rw [List.map_nil, List.nil_append, readLoop]
        rw [if_neg (by omega)]
        rw [readLoop_ok_all b acc (ce + 1) ec]
        simp
      · rw [List.map_nil, List.nil_append, readLoop]
        rw [if_neg (by omega), if_pos hec]
        rw [readLoop_ok_all b acc (ce + 1) (ec + 1)]
        simp
  | cons f rest ih =>
      intro b acc ce ec hce hec
      rw [List.map_cons, List.cons_append, readLoop]
      rw [ih b (f :: acc) 0 ec (by unfold max_consecutive_errors; omega) hec]
      simp

/-- Claim C7, amended: the frame source skips an isolated unreadable/corrupt
frame and keeps decoding (every good frame before and after it is kept, in
order); ten consecutive failures stop the read loop, but `read_video` raises
only when the surviving frame set is degenerate — no frames at all with at
least one error, or fewer than 100 frames.  When 100 or more frames survived
it returns them and the run proceeds on that (possibly degraded) frame set;
"too many consecutive failures" alone does not fail the run. -/
theorem claim_C7_read_video :
    (∀ (a b : List ℕ) (e : ReadEvent), (e = ReadEvent.nullFrame ∨ e = ReadEvent.exn) →
        readLoop (a.map ReadEvent.ok ++ e :: b.map ReadEvent.ok) [] 0 0 =
          (a ++ b, if e = ReadEvent.exn then 1 else 0)) ∧
    (∀ events : List ReadEvent,
        (∃ msg, read_video events = Except.error msg) ↔
          ((readLoop events [] 0 0).1.length = 0 ∧ 0 < (readLoop events [] 0 0).2) ∨
          (0 < (readLoop events [] 0 0).1.length ∧
            (readLoop events [] 0 0).1.length < min_frames)) := by
  constructor
  · intro a b e he
    rw [readLoop_skips_isolated e he a b [] 0 0 (by norm_num [max_consecutive_errors])
      (by norm_num [max_total_errors])]
    simp
  · intro events
    unfold read_video
    rcases hr : readLoop events [] 0 0 with ⟨fs, ec⟩
    by_cases h0 : fs.length = 0
    · rw [if_pos h0]
      by_cases hec : 0 < ec
      · rw [if_pos hec]
        simp [h0, hec]
      · rw [if_neg hec]
        simp [h0, hec]
    · rw [if_neg h0]
      by_cases hmin : fs.length < min_frames
      · rw [if_pos hmin]
        simp [h0, hmin, Nat.pos_of_ne_zero h0]
      · rw [if_neg hmin]
        simp [h0, hmin]

/-- A decode stream: 100 good frames, then ten consecutive exceptions, then one
more good frame that is never reached. -/
def degradedEvents : List ReadEvent :=
  (List.range 100).map ReadEvent.ok ++ List.replicate 10 ReadEvent.exn ++ [ReadEvent.ok 100]

/-- Claim C7 counterexample: ten consecutive read failures occur (the loop stops
and counts 10 errors), yet `read_video` does not raise — it returns the 100
frames read before the failures and the run proceeds on that degraded frame
set, contradicting "the whole run fails fast". -/
theorem claim_C7_counterexample :
    (readLoop degradedEvents [] 0 0).2 = 10 ∧
    read_video degradedEvents = Except.ok ((List.range 100)) := by
  constructor
  · decide
  · rfl

/-- Claim C7 witness: the skip clause applied to two good frames, one corrupt
frame, one more good frame. -/
theorem claim_C7_witness :
    (ReadEvent.nullFrame = ReadEvent.nullFrame ∨ ReadEvent.nullFrame = ReadEvent.exn) ∧
    readLoop ([1, 2].map ReadEvent.ok ++ ReadEvent.nullFrame :: [3].map ReadEvent.ok)
        [] 0 0 = ([1, 2, 3], 0) :=
  ⟨Or.inl rfl, by
    simpa using claim_C7_read_video.1 [1, 2] [3] ReadEvent.nullFrame (Or.inl rfl)⟩

/-! ## Claim C8 -/

/-- Each ledger step appends exactly one entry. -/
theorem tbc_length (assigns : List (Option ℕ)) :
    ∀ acc : List ℕ, (assigns.foldl tbcStep acc).length = acc.length + assigns.length := by
  induction assigns with
  | nil => intro acc; simp
  | cons a rest ih =>
      intro acc
      rw [List.foldl_cons, ih]
      cases a <;> simp [tbcStep] <;> omega

/-- With all per-frame team outcomes among `{1, 2}` (or absent), every ledger
entry lands in `{1, 2}`: the sticky fallback repeats an earlier entry and the
first-frame default is 1. -/
theorem tbc_mem (assigns : List (Option ℕ))
    (hval : ∀ a ∈ assigns, a = none ∨ a = some 1 ∨ a = some 2) :
    ∀ acc : List ℕ, (∀ x ∈ acc, x = 1 ∨ x = 2) →
      ∀ x ∈ assigns.foldl tbcStep acc, x = 1 ∨ x = 2 := by
  induction assigns with
  | nil => intro acc hacc x hx; exact hacc x hx
  | cons a rest ih =>
      intro acc hacc x hx
      rw [List.foldl_cons] at hx
      have hval' : ∀ b ∈ rest, b = none ∨ b = some 1 ∨ b = some 2 :=
        fun b hb => hval b (by simp [hb])
      refine ih hval' (tbcStep acc a) ?_ x hx
      intro y hy
      rcases a with _ | t
      · rw [tbcStep] at hy
        rcases List.mem_append.mp hy with h | h
        · exact hacc y h
        · have hy1 : y = acc.getLastD 1 := by simpa using h
          subst hy1
          rcases List.eq_nil_or_concat acc with hnil | _
          · subst hnil; left; rfl
          · by_cases hne : acc = []
            · subst hne; left; rfl
            · have hmem : acc.getLastD 1 ∈ acc := by
                rw [List.getLastD_eq_getLast?, List.getLast?_eq_getLast acc hne]
                simp [List.getLast_mem]
              exact hacc _ hmem
      · rw [tbcStep] at hy
        rcases List.mem_append.mp hy with h | h
        · exact hacc y h
        · have hyt : y = t := by simpa using h
          subst hyt
          rcases hval (some y) (by simp) with h | h | h
          · exact absurd h (by simp)
          · left; simpa using h
          · right; simpa using h

/-- A list of 1s and 2s has `count 1 + count 2 = length`. -/
theorem count_one_two (l : List ℕ) (h : ∀ x ∈ l, x = 1 ∨ x = 2) :
    l.count 1 + l.count 2 = l.length := by
  induction l with
  | nil => simp
  | cons a rest ih =>
      have hrest := ih (fun x hx => h x (by simp [hx]))
      rcases h a (by simp) with ha | ha <;> subst ha <;>
        simp [List.count_cons] <;> omega

/-- Claim C8: the team-ball-control ledger has exactly one entry per processed
frame; given that every per-frame team outcome carries one of the two team
labels 1 and 2 (the values `_create_analysis_summary` counts), the frames
credited to the two teams sum to the total frame count, and the two reported
possession percentages sum to exactly 100%. -/
theorem claim_C8_possession_ledger (assigns : List (Option ℕ))
    (hval : ∀ a ∈ assigns, a = none ∨ a = some 1 ∨ a = some 2) :
    (processorTeamBallControl assigns).length = assigns.length ∧
    (processorTeamBallControl assigns).count 1 + (processorTeamBallControl assigns).count 2 =
      assigns.length ∧
    (0 < assigns.length →
      (possession_summary (processorTeamBallControl assigns)).1 +
        (possession_summary (processorTeamBallControl assigns)).2 = 100) := by
  have hlen : (processorTeamBallControl assigns).length = assigns.length := by
    unfold processorTeamBallControl
    rw [tbc_length assigns []]
    simp
  have hmem : ∀ x ∈ processorTeamBallControl assigns, x = 1 ∨ x = 2 :=
    tbc_mem assigns hval [] (by simp)
  have hcount : (processorTeamBallControl assigns).count 1 +
      (processorTeamBallControl assigns).count 2 = assigns.length := by
    rw [count_one_two _ hmem, hlen]
  refine ⟨hlen, hcount, ?_⟩
  intro hpos
  unfold possession_summary team_percent
  rw [hlen]
  rw [if_pos hpos, if_pos hpos]
  have hTne : ((assigns.length : ℚ)) ≠ 0 := by
    exact_mod_cast Nat.pos_iff_ne_zero.mp hpos
  have hcQ : ((processorTeamBallControl assigns).count 1 : ℚ) +
      ((processorTeamBallControl assigns).count 2 : ℚ) = (assigns.length : ℚ) := by
    exact_mod_cast hcount
  field_simp
  linarith [hcQ]

/-- Claim C8 witness: the theorem applied to a concrete three-frame run —
a team-1 possessor, a frame with no possessor (sticky fallback), a team-2
possessor. -/
theorem claim_C8_witness :
    (processorTeamBallControl [some 1, none, some 2]).length =
      ([some 1, none, some 2] : List (Option ℕ)).length ∧
    (processorTeamBallControl [some 1, none, some 2]).count 1 +
      (processorTeamBallControl [some 1, none, some 2]).count 2 =
      ([some 1, none, some 2] : List (Option ℕ)).length ∧
    (0 < ([some 1, none, some 2] : List (Option ℕ)).length →
      (possession_summary (processorTeamBallControl [some 1, none, some 2])).1 +
        (possession_summary (processorTeamBallControl [some 1, none, some 2])).2 = 100) :=
  claim_C8_possession_ledger [some 1, none, some 2] (by decide)

/-! ## Claim C9 -/

/-- Claim C9: with at least one already-classified outfield player on each
team, `resolve_goalkeepers_team_id` returns one label per goalkeeper, every
returned label is 0 or 1, and a goalkeeper gets label 0 exactly when its
bottom-center anchor is strictly closer to team 0's outfield centroid than to
team 1's (distances compared as squares, which is order-equivalent for the
Euclidean norms the source compares). -/
theorem claim_C9_goalkeeper_assignment (players_xy : List (ℚ × ℚ))
    (players_team_id : List ℕ) (goalkeepers_xy : List (ℚ × ℚ))
    (h0 : teamPoints players_xy players_team_id 0 ≠ [])
    (h1 : teamPoints players_xy players_team_id 1 ≠ []) :
    (resolve_goalkeepers_team_id players_xy players_team_id goalkeepers_xy).length =
      goalkeepers_xy.length ∧
    ∀ (i : ℕ) (g : ℚ × ℚ), goalkeepers_xy.get? i = some g →
      ((resolve_goalkeepers_team_id players_xy players_team_id goalkeepers_xy).get? i =
          some 0 ∨
        (resolve_goalkeepers_team_id players_xy players_team_id goalkeepers_xy).get? i =
          some 1) ∧
      ((resolve_goalkeepers_team_id players_xy players_team_id goalkeepers_xy).get? i =
          some 0 ↔
        measure_distance_sq g (centroid (teamPoints players_xy players_team_id 0)) <
          measure_distance_sq g (centroid (teamPoints players_xy players_team_id 1))) := by
  constructor
  · unfold resolve_goalkeepers_team_id
    simp
  · intro i g hg
    unfold resolve_goalkeepers_team_id
    rw [List.get?_map, hg, Option.map_some']
    by_cases hd : measure_distance_sq g (centroid (teamPoints players_xy players_team_id 0)) <
        measure_distance_sq g (centroid (teamPoints players_xy players_team_id 1))
    · rw [if_pos hd]
      exact ⟨Or.inl rfl, by simp [hd]⟩
    · rw [if_neg hd]
      exact ⟨Or.inr rfl, by simp [hd]⟩

/-- Claim C9 witness: the theorem applied to two outfield players at `(0,0)`
(team 0) and `(10,0)` (team 1) and one goalkeeper at `(1,0)`. -/
theorem claim_C9_witness :
    teamPoints [(0, 0), (10, 0)] [0, 1] 0 ≠ [] ∧
    teamPoints [(0, 0), (10, 0)] [0, 1] 1 ≠ [] ∧
    ((resolve_goalkeepers_team_id [(0, 0), (10, 0)] [0, 1] [(1, 0)]).length =
        ([(1, 0)] : List (ℚ × ℚ)).length ∧
      ∀ (i : ℕ) (g : ℚ × ℚ), ([(1, 0)] : List (ℚ × ℚ)).get? i = some g →
        ((resolve_goalkeepers_team_id [(0, 0), (10, 0)] [0, 1] [(1, 0)]).get? i = some 0 ∨
          (resolve_goalkeepers_team_id [(0, 0), (10, 0)] [0, 1] [(1, 0)]).get? i = some 1) ∧
        ((resolve_goalkeepers_team_id [(0, 0), (10, 0)] [0, 1] [(1, 0)]).get? i = some 0 ↔
          measure_distance_sq g (centroid (teamPoints [(0, 0), (10, 0)] [0, 1] 0)) <
            measure_distance_sq g (centroid (teamPoints [(0, 0), (10, 0)] [0, 1] 1)))) :=
  ⟨by simp [teamPoints], by simp [teamPoints],
    claim_C9_goalkeeper_assignment [(0, 0), (10, 0)] [0, 1] [(1, 0)]
      (by simp [teamPoints]) (by simp [teamPoints])⟩

end TacticoAI
